import Mathlib

/-!
Shallow embedding of the employee-import pipeline in
`src/lambda_functions/lambdaImportEmployee/lambda_function.py`.

Python strings are modelled as Lean `String`, but every string-processing
step is carried out on `String.toList` with structurally recursive
functions so that all definitions evaluate inside the kernel.

Modelling conventions, stated once here:
* Python dicts (CSV rows, data models) preserve insertion order; rows are
  modelled as association lists `List (String × String)`, and structured
  records as a record type with one `Option String` field per possible key.
* Python truthiness on strings (`if v:`) is emptiness testing.
* External effects (the DynamoDB session table, the OpenAI completion
  call, the WebSocket send) are modelled as explicit oracle arguments;
  the per-attempt outcome of one completion call is an oracle value.
* `str.isalpha` / regex `\w` follow Python's Unicode semantics, encoded
  exactly for all code points below U+0250 (Basic Latin, Latin-1
  Supplement, Latin Extended-A/B), the range exercised in this
  development.
-/

/-! ## Python character and string primitives -/

/-- Python `str.isalpha` on a single character: true exactly for Unicode
letter categories.  Encoded exactly for code points below U+0250
(ASCII letters; ª µ º; the Latin-1/Extended letters U+00C0–U+024F minus
the two signs × U+00D7 and ÷ U+00F7). -/
def pyIsAlphaChar (c : Char) : Bool :=
  let n := c.toNat
  (65 ≤ n && n ≤ 90) || (97 ≤ n && n ≤ 122) ||
  n == 0xAA || n == 0xB5 || n == 0xBA ||
  (0xC0 ≤ n && n ≤ 0x24F && n != 0xD7 && n != 0xF7)

/-- Python regex `\w` on a single character (Unicode mode): alphanumeric or
underscore.  Alphabetic as in `pyIsAlphaChar`; numeric covers the ASCII
digits and the Latin-1 numeric signs ² ³ ¹ ¼ ½ ¾. -/
def pyWordChar (c : Char) : Bool :=
  let n := c.toNat
  pyIsAlphaChar c || (48 ≤ n && n ≤ 57) || n == 95 ||
  n == 0xB2 || n == 0xB3 || n == 0xB9 || n == 0xBC || n == 0xBD || n == 0xBE

/-- Python `str.strip()` on a character list: drop leading and trailing
whitespace. -/
def pyStripL (cs : List Char) : List Char :=
  ((cs.dropWhile Char.isWhitespace).reverse.dropWhile Char.isWhitespace).reverse

/-- Python `str.strip()`. -/
def pyStrip (s : String) : String := ⟨pyStripL s.toList⟩

/-- Python `str.lower()` (ASCII range; header keys in this pipeline are
ASCII). -/
def pyLower (s : String) : String := ⟨s.toList.map Char.toLower⟩

/-- Whether the first list is an initial segment of the second. -/
def leadEq : List Char → List Char → Bool
  | [], _ => true
  | _ :: _, [] => false
  | a :: as, b :: bs => a == b && leadEq as bs

/-- Whether the first list occurs contiguously inside the second. -/
def occursIn : List Char → List Char → Bool
  | needle, [] => needle.isEmpty
  | needle, hay@(_ :: rest) => leadEq needle hay || occursIn needle rest

/-- Python `needle in hay` substring test. -/
def strContains (needle hay : String) : Bool :=
  occursIn needle.toList hay.toList

/-- Python `str.split()` helper: accumulates the current (reversed) token
while scanning. -/
def splitWSAux : List Char → List Char → List (List Char)
  | [], acc => if acc.isEmpty then [] else [acc.reverse]
  | c :: rest, acc =>
    if c.isWhitespace then
      if acc.isEmpty then splitWSAux rest [] else acc.reverse :: splitWSAux rest []
    else splitWSAux rest (c :: acc)

/-- Python `str.split()` with no separator: whitespace runs, no empty
tokens. -/
def pySplitWS (cs : List Char) : List (List Char) := splitWSAux cs []

/-- Python truthiness of an optional string variable: `None` and `""` are
falsy. -/
def pyFalsyOpt : Option String → Bool
  | none => true
  | some s => s == ""

/-- A dict entry is created only when the value is truthy: map `some ""`
to absence. -/
def pyTruthyField : Option String → Option String
  | none => none
  | some s => if s == "" then none else some s

/-- Python dict insertion semantics for a comprehension: a colliding key
keeps its first position but takes the latest value. -/
def pyDictInsert (d : List (String × String)) (k v : String) :
    List (String × String) :=
  if d.any (fun kv => kv.1 == k) then
    d.map (fun kv => if kv.1 == k then (k, v) else kv)
  else d ++ [(k, v)]

/-! ## The email regular expression

`EMAIL_REGEX = r"^[\w\.-]+@[\w\.-]+\.\w+$"` (lambda_function.py line 19),
used via `re.match` in `validate_data_model`.  Since the character classes
exclude `@`, the pattern is equivalent to: a non-empty run of
word/dot/hyphen characters, one `@`, a non-empty run of word/dot/hyphen
characters, one `.`, and a non-empty run of word characters ending the
match; the final `.` is necessarily the last dot of the domain.

Python's `$` (without `re.MULTILINE`) matches at the absolute end of the
string **or** just before a single newline ending the string.  Because
`\w` excludes `\n`, the absolute matcher can never succeed on a string
ending in `\n`, so `re.match(EMAIL_REGEX, s)` succeeds exactly when the
absolute matcher succeeds on `s` with one trailing `\n` removed. -/

/-- The character class `[\w\.-]`. -/
def wordDotDash (c : Char) : Bool :=
  pyWordChar c || c == '.' || c == '-'

/-- Matcher for the domain part `[\w\.-]+\.\w+$`: everything after the
last dot must be a non-empty run of word characters, everything before it
a non-empty run of `[\w\.-]` characters. -/
def emailDomainMatch (d : List Char) : Bool :=
  let tldRev := d.reverse.takeWhile (fun c => c != '.')
  match d.reverse.dropWhile (fun c => c != '.') with
  | [] => false
  | _ :: preRev =>
    !tldRev.isEmpty && tldRev.all pyWordChar &&
    !preRev.isEmpty && preRev.all wordDotDash

/-- Absolute matcher for `^[\w\.-]+@[\w\.-]+\.\w+$` against a whole
character list: split at the first `@` (the local part may not contain
one), require the remainder `@`-free and a matching domain. -/
def emailRegexCore (cs : List Char) : Bool :=
  match cs.dropWhile (fun c => c != '@') with
  | [] => false
  | _ :: d =>
    !(cs.takeWhile (fun c => c != '@')).isEmpty &&
    (cs.takeWhile (fun c => c != '@')).all wordDotDash &&
    d.all (fun c => c != '@') && emailDomainMatch d

/-- Remove one newline ending the list, if present — the position where
`$` may also match under `re.match`. -/
def dropTrailingNewline (cs : List Char) : List Char :=
  match cs.reverse with
  | [] => cs
  | x :: restRev => if x == '\n' then restRev.reverse else cs

/-- `re.match(EMAIL_REGEX, s)` as a whole-string test: the absolute
pattern must consume everything up to the position of `$`, which is the
end of the string or just before a single trailing newline. -/
def emailRegexMatch (s : String) : Bool :=
  emailRegexCore (dropTrailingNewline s.toList)

/-! ## Data model -/

/-- A raw CSV row as produced by `csv.DictReader`: an ordered header → cell
mapping. -/
abbrev RawRow := List (String × String)

/-- A candidate/structured record: the loosely-typed dicts flowing through
the pipeline, with one optional field per key the code reads or writes
(`name`, `email`, `phoneNumber`, `role`).  An absent key is `none`. -/
structure DataModel where
  name : Option String
  email : Option String
  phoneNumber : Option String
  role : Option String
deriving DecidableEq, Repr

/-- The empty dict `{}` (the unreachable fall-through return of
`generate_data_model_from_gpt`). -/
def emptyDataModel : DataModel := ⟨none, none, none, none⟩

/-- `DEFAULT_ROLE = "employee"` (line 18). -/
def DEFAULT_ROLE : String := "employee"

/-- A token check used by rule (4) of the validator: Python
`part.isalpha()` is true iff the token is non-empty and all its characters
are alphabetic. -/
def pyTokIsAlpha (t : List Char) : Bool :=
  !t.isEmpty && t.all pyIsAlphaChar

/-- `validate_data_model` (lines 270–292): mandatory `name`/`email`
presence, the email regex, non-empty stripped name, and all-alphabetic
whitespace-separated name tokens. -/
def validate_data_model (dm : DataModel) : Bool :=
  match dm.name, dm.email with
  | some name, some email =>
    if !emailRegexMatch email then false
    else if (pyStripL name.toList).isEmpty then false
    else if !((pySplitWS name.toList).all pyTokIsAlpha) then false
    else true
  | _, _ => false

/-! ## Heuristic extractor (`parse_with_heuristics`, lines 120–201) -/

/-- Common synonyms for name columns (line 134). -/
def nameSynonyms : List String :=
  ["firstname", "first_name", "f_name", "lastname", "last_name", "surname"]

/-- Common synonyms for email columns (line 142). -/
def emailSynonyms : List String := ["email", "mail", "email_address"]

/-- `row_lower = {k.lower().strip(): v.strip() for k, v in row.items() if v}`
(line 146). -/
def rowLower (row : RawRow) : List (String × String) :=
  row.foldl
    (fun d kv =>
      if kv.2 == "" then d
      else pyDictInsert d (pyStrip (pyLower kv.1)) (pyStrip kv.2)) []

/-- The first name / last name scanning loop (lines 151–160): assignments
without break, so the last matching column wins. -/
def nameScan (items : List (String × String)) :
    Option String × Option String :=
  items.foldl
    (fun fl kv =>
      if strContains "first" kv.1 then (some kv.2, fl.2)
      else if strContains "last" kv.1 then (fl.1, some kv.2)
      else if nameSynonyms.contains kv.1 then
        (if strContains "f" kv.1 then some kv.2 else fl.1,
         if strContains "l" kv.1 || strContains "s" kv.1 then some kv.2
         else fl.2)
      else fl)
    (none, none)

/-- Dict lookup `d[k]` / `k in d` on the lowered row. -/
def dictFind (d : List (String × String)) (k : String) : Option String :=
  (d.find? (fun kv => kv.1 == k)).map (fun kv => kv.2)

/-- The per-row body of `parse_with_heuristics`: builds `data_obj`
(lines 146–193). -/
def heurObj (row : RawRow) : DataModel :=
  let rl := rowLower row
  let fl0 := nameScan rl
  -- `if not first_name and not last_name:` single-'name' fallback (162–166)
  let fl :=
    if pyFalsyOpt fl0.1 && pyFalsyOpt fl0.2 then
      match dictFind rl "name" with
      | some v => (some v, some "")
      | none => fl0
    else fl0
  -- combined_name (168–170)
  let combined : Option String :=
    if !(pyFalsyOpt fl.1) || !(pyFalsyOpt fl.2) then
      some (pyStrip ((fl.1.getD "") ++ " " ++ (fl.2.getD "")))
    else none
  -- email: first header in the synonym set or containing "email" (172–177)
  let email := (rl.find? (fun kv =>
    emailSynonyms.contains kv.1 || strContains "email" kv.1)).map (fun kv => kv.2)
  -- phone: first header containing "phone" or "mobile" (179–184)
  let phone := (rl.find? (fun kv =>
    strContains "phone" kv.1 || strContains "mobile" kv.1)).map (fun kv => kv.2)
  { name := pyTruthyField combined
    email := pyTruthyField email
    phoneNumber := pyTruthyField phone
    role := none }

/-- The basic check (line 196): a row is structured only when both `name`
and `email` made it into `data_obj`. -/
def heurAccept (row : RawRow) : Bool :=
  (heurObj row).name.isSome && (heurObj row).email.isSome

/-- `parse_with_heuristics` (lines 120–201): accepted rows contribute
their `data_obj` to `structured_rows` in order; all other rows are
appended verbatim to `failed_rows`. -/
def parse_with_heuristics : List RawRow → List DataModel × List RawRow
  | [] => ([], [])
  | row :: rest =>
    let pr := parse_with_heuristics rest
    if heurAccept row then (heurObj row :: pr.1, pr.2)
    else (pr.1, row :: pr.2)

/-! ## AI fallback extractor

The completion call is external; one attempt's outcome is an oracle value.
`ok dm` models a call whose response text `json.loads` parses into a
record; `badJson` models a response whose parsing raises
`json.JSONDecodeError`/`KeyError`/`TypeError`; `callError msg` models the
call itself raising (network/provider fault), carrying the exception
message so that a final re-`raise` is observable. -/

inductive GptOutcome where
  | ok (dm : DataModel)
  | badJson
  | callError (msg : String)
deriving DecidableEq, Repr

/-- The two ways `generate_data_model_from_gpt` can raise: the immediate
`ValueError("Invalid data format returned from GPT-3.")` on a parsing
failure, or the re-raised provider exception once retries are exhausted. -/
inductive GptErr where
  | invalidFormat
  | apiError (msg : String)
deriving DecidableEq, Repr

/-- The retry loop body of `generate_data_model_from_gpt` (lines 236–267)
over the remaining attempt indices, also counting completion calls made.
A parsing failure raises immediately; a call failure retries unless this
was the last attempt (`attempt < max_retries - 1` iff the remaining list
is non-empty), in which case the original exception is re-raised. -/
def gptRun (call : Nat → GptOutcome) :
    List Nat → Except GptErr DataModel × Nat
  | [] => (.ok emptyDataModel, 0)
  | a :: rest =>
    match call a with
    | .ok dm => (.ok dm, 1)
    | .badJson => (.error .invalidFormat, 1)
    | .callError m =>
      if rest.isEmpty then (.error (.apiError m), 1)
      else ((gptRun call rest).1, (gptRun call rest).2 + 1)

/-- `max_retries = 3` (line 237). -/
def MAX_RETRIES : Nat := 3

/-- `generate_data_model_from_gpt` (lines 236–267): `for attempt in
range(max_retries)`. -/
def generate_data_model_from_gpt (call : Nat → GptOutcome) :
    Except GptErr DataModel :=
  (gptRun call (List.range MAX_RETRIES)).1

/-- Number of completion calls one invocation performs. -/
def gptCallCount (call : Nat → GptOutcome) : Nat :=
  (gptRun call (List.range MAX_RETRIES)).2

/-- `parse_with_ai_fallback` (lines 204–221): per failed row, prompt the
model (the prompt is a function of the row, so the oracle is indexed by
the row); any exception is caught locally and moves the row, verbatim, to
`still_failed_rows`. -/
def parse_with_ai_fallback (oracle : RawRow → Nat → GptOutcome) :
    List RawRow → List DataModel × List RawRow
  | [] => ([], [])
  | row :: rest =>
    let pr := parse_with_ai_fallback oracle rest
    match generate_data_model_from_gpt (oracle row) with
    | .ok result => (result :: pr.1, pr.2)
    | .error _ => (pr.1, row :: pr.2)

/-! ## Validation & finalizing (orchestrator, lines 92–107) -/

/-- The role-defaulting step (lines 97–98):
`if "role" not in row or not row["role"]: row["role"] = DEFAULT_ROLE`. -/
def applyRoleDefault (dm : DataModel) : DataModel :=
  if pyFalsyOpt dm.role then { dm with role := some DEFAULT_ROLE } else dm

/-- The validation loop (lines 92–101): validated rows get the role
default and join `validated_rows`; the rest join `invalid_rows`
unchanged. -/
def finalize_rows : List DataModel → List DataModel × List DataModel
  | [] => ([], [])
  | dm :: rest =>
    let pr := finalize_rows rest
    if validate_data_model dm then (applyRoleDefault dm :: pr.1, pr.2)
    else (pr.1, dm :: pr.2)

/-- The final response dict (lines 104–107). -/
structure ExtractionResult where
  invites : List DataModel
  failedUsers : List DataModel
deriving DecidableEq, Repr

/-- Everything one batch produces: the delivered `ExtractionResult` plus
the `still_failed` rows, which the handler only logs (lines 86–89). -/
structure BatchOutcome where
  invites : List DataModel
  failedUsers : List DataModel
  stillFailed : List RawRow
deriving DecidableEq, Repr

/-- The per-batch pipeline of `lambda_handler` after the CSV is parsed
(lines 78–107): heuristics, AI fallback for the heuristically failed rows
(`if failed_rows:`), then validation and finalizing. -/
def processBatchFull (oracle : RawRow → Nat → GptOutcome)
    (rows : List RawRow) : BatchOutcome :=
  let hr := parse_with_heuristics rows
  let ab :=
    if hr.2.isEmpty then ([], [])
    else parse_with_ai_fallback oracle hr.2
  let fin := finalize_rows (hr.1 ++ ab.1)
  ⟨fin.1, fin.2, ab.2⟩

/-- The `generated_data_models` payload delivered over the WebSocket:
only `invites` and `failedUsers`; `still_failed` is dropped. -/
def processBatch (oracle : RawRow → Nat → GptOutcome)
    (rows : List RawRow) : ExtractionResult :=
  let b := processBatchFull oracle rows
  ⟨b.invites, b.failedUsers⟩

/-! ## The SQS handler (`lambda_handler`, lines 48–117) -/

/-- A parsed SQS message body: `connectionId` and `data` are `.get`s on
the JSON body, so either may be absent. -/
structure SqsMsg where
  connectionId : Option String
  data : Option String
deriving DecidableEq, Repr

/-- A DynamoDB session item: `item.get("status")`. -/
structure DynItem where
  status : Option String
deriving DecidableEq, Repr

/-- The session gate (lines 57–65): connected iff the item exists and its
status is `"connected"` (`if not item or item.get("status") != "connected"`;
a falsy empty item also fails the status comparison). -/
def sessionConnected (store : Option String → Option DynItem)
    (cid : Option String) : Bool :=
  match store cid with
  | none => false
  | some item => item.status == some "connected"

/-- Python `str.splitlines` restricted to the terminators `\n`, `\r`,
`\r\n`. -/
def splitLinesAux : List Char → List Char → List (List Char)
  | [], acc => if acc.isEmpty then [] else [acc.reverse]
  | '\r' :: '\n' :: rest, acc => acc.reverse :: splitLinesAux rest []
  | '\r' :: rest, acc => acc.reverse :: splitLinesAux rest []
  | '\n' :: rest, acc => acc.reverse :: splitLinesAux rest []
  | c :: rest, acc => splitLinesAux rest (c :: acc)

/-- Split one CSV line at commas (no quoting — the rows this pipeline
handles are plain comma-separated cells); a blank line is the blank row
`[]`, which `csv.DictReader` skips. -/
def splitCommasAux : List Char → List Char → List (List Char)
  | [], acc => [acc.reverse]
  | ',' :: rest, acc => acc.reverse :: splitCommasAux rest []
  | c :: rest, acc => splitCommasAux rest (c :: acc)

/-- `list(csv.DictReader(csv_content.splitlines()))` (line 74): first line
gives the field names, each later non-blank line is zipped with them. -/
def csvDictReader (s : String) : List RawRow :=
  match splitLinesAux s.toList [] with
  | [] => []
  | header :: rest =>
    let fields := (splitCommasAux header []).map (fun l => (⟨l⟩ : String))
    (rest.filter (fun l => !l.isEmpty)).map (fun line =>
      fields.zip ((splitCommasAux line []).map (fun l => (⟨l⟩ : String))))

/-- The exceptions `lambda_handler` distinguishes: `ClientError` (caught
per message and logged) and the `ValueError` of line 70 (uncaught). -/
inductive PyErr where
  | clientError
  | valueError
deriving DecidableEq, Repr

/-- One WebSocket delivery: connection id and payload. -/
abbrev Delivery := Option String × ExtractionResult

/-- The body of the per-record loop (lines 52–110): session gate, the
`csv_content` presence check that raises `ValueError`, CSV parsing, the
batch pipeline, and the delivery.  `ok none` is the `continue` of the
gate; `ok (some d)` records the send. -/
def processMessage (store : Option String → Option DynItem)
    (oracle : RawRow → Nat → GptOutcome) (msg : SqsMsg) :
    Except PyErr (Option Delivery) :=
  if !sessionConnected store msg.connectionId then .ok none
  else
    match msg.data with
    | none => .error .valueError
    | some s =>
      if s == "" then .error .valueError
      else .ok (some (msg.connectionId, processBatch oracle (csvDictReader s)))

/-- `lambda_handler` (lines 48–117) over the event's records: the list of
deliveries actually sent, and the exception that escaped the handler, if
any.  Only `ClientError` is caught per record (lines 112–115); any other
exception aborts the remaining records. -/
def lambda_handler (store : Option String → Option DynItem)
    (oracle : RawRow → Nat → GptOutcome) :
    List SqsMsg → List Delivery × Option PyErr
  | [] => ([], none)
  | msg :: rest =>
    match processMessage store oracle msg with
    | .ok none => lambda_handler store oracle rest
    | .ok (some d) =>
      let pr := lambda_handler store oracle rest
      (d :: pr.1, pr.2)
    | .error .clientError => lambda_handler store oracle rest
    | .error .valueError => ([], some .valueError)

/-! ## Characterization lemmas: the per-row loops are per-row maps -/

/-- `parse_with_heuristics` classifies each row independently: the
structured list is a `filterMap` and the failed list a `filter` of one
per-row function over the input. -/
theorem parse_with_heuristics_eq (rows : List RawRow) :
    parse_with_heuristics rows =
      (rows.filterMap (fun r => if heurAccept r then some (heurObj r) else none),
       rows.filter (fun r => !heurAccept r)) := by
  induction rows with
  | nil => rfl
  | cons r rest ih =>
    by_cases h : heurAccept r = true
    · simp [parse_with_heuristics, ih, List.filterMap_cons, List.filter_cons, h]
    · rw [Bool.not_eq_true] at h
      simp [parse_with_heuristics, ih, List.filterMap_cons, List.filter_cons, h]

/-- `parse_with_ai_fallback` resolves each failed row independently. -/
theorem parse_with_ai_fallback_eq (oracle : RawRow → Nat → GptOutcome)
    (rows : List RawRow) :
    parse_with_ai_fallback oracle rows =
      (rows.filterMap (fun r => (generate_data_model_from_gpt (oracle r)).toOption),
       rows.filter (fun r => !(generate_data_model_from_gpt (oracle r)).toOption.isSome)) := by
  induction rows with
  | nil => rfl
  | cons r rest ih =>
    cases h : generate_data_model_from_gpt (oracle r) with
    | ok dm =>
      simp [parse_with_ai_fallback, ih, List.filterMap_cons, List.filter_cons, h,
        Except.toOption]
    | error e =>
      simp [parse_with_ai_fallback, ih, List.filterMap_cons, List.filter_cons, h,
        Except.toOption]

/-- The validation loop routes each candidate independently: validated
candidates get the role default, the rest are kept unchanged. -/
theorem finalize_rows_eq (dms : List DataModel) :
    finalize_rows dms =
      ((dms.filter (fun d => validate_data_model d)).map applyRoleDefault,
       dms.filter (fun d => !validate_data_model d)) := by
  induction dms with
  | nil => rfl
  | cons d rest ih =>
    by_cases h : validate_data_model d = true
    · simp [finalize_rows, ih, List.filter_cons, h]
    · rw [Bool.not_eq_true] at h
      simp [finalize_rows, ih, List.filter_cons, h]

/-- Claim C7: a row is placed in the structured list exactly when both a
name and an email were resolved into its `data_obj`; every other row is
appended to the failed list as the original raw row, unmodified. -/
theorem heuristics_structured_iff_name_and_email :
    ∀ rows : List RawRow,
      parse_with_heuristics rows =
        (rows.filterMap (fun r =>
          if (heurObj r).name.isSome && (heurObj r).email.isSome
          then some (heurObj r) else none),
         rows.filter (fun r =>
          !((heurObj r).name.isSome && (heurObj r).email.isSome))) :=
  fun rows => parse_with_heuristics_eq rows

/-- Claim C4: heuristic extraction is order-independent — it is a per-row
classification with no cross-row state, and permuting the input rows
permutes both output lists correspondingly. -/
theorem heuristics_order_independent :
    (∀ rows : List RawRow,
      parse_with_heuristics rows =
        (rows.filterMap (fun r => if heurAccept r then some (heurObj r) else none),
         rows.filter (fun r => !heurAccept r))) ∧
    ∀ rows₁ rows₂ : List RawRow, rows₁.Perm rows₂ →
      (parse_with_heuristics rows₁).1.Perm (parse_with_heuristics rows₂).1 ∧
      (parse_with_heuristics rows₁).2.Perm (parse_with_heuristics rows₂).2 := by
  refine ⟨parse_with_heuristics_eq, ?_⟩
  intro rows₁ rows₂ hp
  rw [parse_with_heuristics_eq, parse_with_heuristics_eq]
  exact ⟨hp.filterMap _, hp.filter _⟩

/-- Witness for C4 at a concrete two-row batch and its swap. -/
theorem heuristics_order_independent_witness :
    (([[("name", "A"), ("email", "a@b.cd")], [("x", "y")]] : List RawRow)).Perm
        [[("x", "y")], [("name", "A"), ("email", "a@b.cd")]] ∧
    (parse_with_heuristics [[("name", "A"), ("email", "a@b.cd")], [("x", "y")]]).1.Perm
      (parse_with_heuristics [[("x", "y")], [("name", "A"), ("email", "a@b.cd")]]).1 ∧
    (parse_with_heuristics [[("name", "A"), ("email", "a@b.cd")], [("x", "y")]]).2.Perm
      (parse_with_heuristics [[("x", "y")], [("name", "A"), ("email", "a@b.cd")]]).2 := by
  have hp : (([[("name", "A"), ("email", "a@b.cd")], [("x", "y")]] : List RawRow)).Perm
      [[("x", "y")], [("name", "A"), ("email", "a@b.cd")]] :=
    List.Perm.swap _ _ _
  exact ⟨hp, (heuristics_order_independent.2 _ _ hp).1,
    (heuristics_order_independent.2 _ _ hp).2⟩

/-- Claim C2: a failure of one row's AI resolution is caught locally — the
row is appended to the still-failed list and all sibling rows, before and
after it, are processed exactly as they would be on their own. -/
theorem ai_row_failure_isolated :
    ∀ (oracle : RawRow → Nat → GptOutcome) (pre post : List RawRow)
      (row : RawRow) (e : GptErr),
      generate_data_model_from_gpt (oracle row) = .error e →
      parse_with_ai_fallback oracle (pre ++ row :: post) =
        ((parse_with_ai_fallback oracle pre).1 ++ (parse_with_ai_fallback oracle post).1,
         (parse_with_ai_fallback oracle pre).2 ++ row :: (parse_with_ai_fallback oracle post).2) := by
  intro oracle pre post row e h
  rw [parse_with_ai_fallback_eq, parse_with_ai_fallback_eq, parse_with_ai_fallback_eq]
  simp [List.filterMap_append, List.filter_append, List.filterMap_cons,
    List.filter_cons, h, Except.toOption]

/-- Witness for C2: a single row whose response is malformed JSON lands in
the still-failed list with no exception escaping. -/
theorem ai_row_failure_isolated_witness :
    generate_data_model_from_gpt
        ((fun (_ : RawRow) (_ : Nat) => GptOutcome.badJson) [("x", "y")]) =
      .error .invalidFormat ∧
    parse_with_ai_fallback (fun _ _ => GptOutcome.badJson) [[("x", "y")]] =
      ([], [[("x", "y")]]) := by
  refine ⟨rfl, ?_⟩
  have h := ai_row_failure_isolated (fun _ _ => GptOutcome.badJson) [] []
    [("x", "y")] .invalidFormat rfl
  simpa using h

/-! ## Row conservation -/

theorem parse_with_heuristics_length (rows : List RawRow) :
    (parse_with_heuristics rows).1.length + (parse_with_heuristics rows).2.length
      = rows.length := by
  induction rows with
  | nil => rfl
  | cons r rest ih =>
    by_cases h : heurAccept r = true
    · simp [parse_with_heuristics, h]; omega
    · rw [Bool.not_eq_true] at h
      simp [parse_with_heuristics, h]; omega

theorem parse_with_ai_fallback_length (oracle : RawRow → Nat → GptOutcome)
    (rows : List RawRow) :
    (parse_with_ai_fallback oracle rows).1.length +
      (parse_with_ai_fallback oracle rows).2.length = rows.length := by
  induction rows with
  | nil => rfl
  | cons r rest ih =>
    cases h : generate_data_model_from_gpt (oracle r) with
    | ok dm => simp [parse_with_ai_fallback, h]; omega
    | error e => simp [parse_with_ai_fallback, h]; omega

theorem finalize_rows_length (dms : List DataModel) :
    (finalize_rows dms).1.length + (finalize_rows dms).2.length = dms.length := by
  induction dms with
  | nil => rfl
  | cons d rest ih =>
    by_cases h : validate_data_model d = true
    · simp [finalize_rows, h]; omega
    · rw [Bool.not_eq_true] at h
      simp [finalize_rows, h]; omega

/-- Claim C1 (amended): for every batch the invites, the failedUsers and
the still-failed rows together account for every parsed input row —
`|invites| + |failedUsers| + |stillFailed| = |rows|`.  The rows that fail
both the heuristic stage and the AI fallback are only logged: they appear
in `stillFailed`, not in the delivered `failedUsers`, so the delivered
lists alone undercount by `|stillFailed|`. -/
theorem batch_row_conservation_with_logged :
    ∀ (oracle : RawRow → Nat → GptOutcome) (rows : List RawRow),
      (processBatchFull oracle rows).invites.length +
      (processBatchFull oracle rows).failedUsers.length +
      (processBatchFull oracle rows).stillFailed.length = rows.length := by
  intro oracle rows
  have hh := parse_with_heuristics_length rows
  by_cases he : (parse_with_heuristics rows).2.isEmpty = true
  · have hlen : (parse_with_heuristics rows).2.length = 0 := by
      rw [List.isEmpty_iff] at he; rw [he]; rfl
    have hf := finalize_rows_length ((parse_with_heuristics rows).1 ++ ([] : List DataModel))
    rw [List.append_nil] at hf
    simp [processBatchFull, he]
    omega
  · have ha := parse_with_ai_fallback_length oracle (parse_with_heuristics rows).2
    have hf := finalize_rows_length
      ((parse_with_heuristics rows).1 ++
        (parse_with_ai_fallback oracle (parse_with_heuristics rows).2).1)
    rw [List.length_append] at hf
    simp [processBatchFull, he]
    omega

/-- Counterexample to C1 as stated: a one-row batch whose row fails the
heuristics and whose AI calls all fail produces zero invites and zero
failedUsers, so `|invites| + |failedUsers| ≠ |input rows|` — the row is
silently dropped from the delivered output. -/
theorem batch_row_conservation_counterexample :
    (processBatch (fun _ _ => GptOutcome.callError "down") [[("foo", "bar")]]).invites.length +
      (processBatch (fun _ _ => GptOutcome.callError "down") [[("foo", "bar")]]).failedUsers.length = 0 ∧
    ([[("foo", "bar")]] : List RawRow).length = 1 ∧
    (processBatchFull (fun _ _ => GptOutcome.callError "down") [[("foo", "bar")]]).stillFailed =
      [[("foo", "bar")]] := by decide

/-! ## Retry policy -/

theorem gptRun_count_le (call : Nat → GptOutcome) (l : List Nat) :
    (gptRun call l).2 ≤ l.length := by
  induction l with
  | nil => simp [gptRun]
  | cons a rest ih =>
    cases h : call a with
    | ok dm => simp [gptRun, h]
    | badJson => simp [gptRun, h]
    | callError m =>
      by_cases hr : rest.isEmpty = true
      · simp [gptRun, h, hr]
      · simp [gptRun, h, hr]; omega

theorem range_three_eq : List.range MAX_RETRIES = [0, 1, 2] := by decide

/-- Claim C3: the completion call is attempted at most 3 times in total;
a malformed response (unparseable text) fails immediately after the call
that produced it, consuming no further attempts; only failures of the
call itself are retried, and once all 3 attempts fail the last call's
error propagates to the caller. -/
theorem gpt_retry_policy :
    ∀ call : Nat → GptOutcome,
      gptCallCount call ≤ 3 ∧
      (∀ k, k < 3 → (∀ j, j < k → ∃ m, call j = .callError m) →
        call k = .badJson →
        generate_data_model_from_gpt call = .error .invalidFormat ∧
        gptCallCount call = k + 1) ∧
      (∀ m₀ m₁ m₂, call 0 = .callError m₀ → call 1 = .callError m₁ →
        call 2 = .callError m₂ →
        generate_data_model_from_gpt call = .error (.apiError m₂) ∧
        gptCallCount call = 3) := by
  intro call
  refine ⟨?_, ?_, ?_⟩
  · have h := gptRun_count_le call (List.range MAX_RETRIES)
    rw [range_three_eq] at h
    exact h
  · intro k hk hprev hbad
    interval_cases k
    · constructor
      · unfold generate_data_model_from_gpt
        rw [range_three_eq]
        simp [gptRun, hbad]
      · unfold gptCallCount
        rw [range_three_eq]
        simp [gptRun, hbad]
    · obtain ⟨m0, hm0⟩ := hprev 0 (by omega)
      constructor
      · unfold generate_data_model_from_gpt
        rw [range_three_eq]
        simp [gptRun, hm0, hbad]
      · unfold gptCallCount
        rw [range_three_eq]
        simp [gptRun, hm0, hbad]
    · obtain ⟨m0, hm0⟩ := hprev 0 (by omega)
      obtain ⟨m1, hm1⟩ := hprev 1 (by omega)
      constructor
      · unfold generate_data_model_from_gpt
        rw [range_three_eq]
        simp [gptRun, hm0, hm1, hbad]
      · unfold gptCallCount
        rw [range_three_eq]
        simp [gptRun, hm0, hm1, hbad]
  · intro m₀ m₁ m₂ h0 h1 h2
    constructor
    · unfold generate_data_model_from_gpt
      rw [range_three_eq]
      simp [gptRun, h0, h1, h2]
    · unfold gptCallCount
      rw [range_three_eq]
      simp [gptRun, h0, h1, h2]

/-- Witness for C3: with every call failing, the error of the last call
propagates after exactly 3 attempts; with the first response malformed,
the loop stops after exactly 1 attempt. -/
theorem gpt_retry_policy_witness :
    gptCallCount (fun _ => GptOutcome.callError "down") ≤ 3 ∧
    generate_data_model_from_gpt (fun _ => GptOutcome.callError "down") =
      .error (.apiError "down") ∧
    gptCallCount (fun _ => GptOutcome.callError "down") = 3 ∧
    generate_data_model_from_gpt (fun _ => GptOutcome.badJson) =
      .error .invalidFormat ∧
    gptCallCount (fun _ => GptOutcome.badJson) = 1 := by
  have h3 := (gpt_retry_policy (fun _ => GptOutcome.callError "down")).2.2
    "down" "down" "down" rfl rfl rfl
  have h1 := (gpt_retry_policy (fun _ => GptOutcome.badJson)).2.1
    0 (by omega) (fun j hj => absurd hj (by omega)) rfl
  exact ⟨(gpt_retry_policy (fun _ => GptOutcome.callError "down")).1,
    h3.1, h3.2, h1.1, h1.2⟩

/-! ## Role defaulting -/

/-- Claim C8 (amended): after a record passes validation the default role
`"employee"` is assigned exactly when the record's role is missing **or
empty** (`"role" not in row or not row["role"]`); a validated record with
a non-empty role is kept unchanged, and records failing validation go to
`failedUsers` with no defaulting applied. -/
theorem role_default_characterization :
    (∀ dms : List DataModel,
      finalize_rows dms =
        ((dms.filter (fun d => validate_data_model d)).map applyRoleDefault,
         dms.filter (fun d => !validate_data_model d))) ∧
    (∀ dm : DataModel, dm.role = none ∨ dm.role = some "" →
      (applyRoleDefault dm).role = some DEFAULT_ROLE) ∧
    (∀ (dm : DataModel) (s : String), dm.role = some s → s ≠ "" →
      applyRoleDefault dm = dm) := by
  refine ⟨finalize_rows_eq, ?_, ?_⟩
  · intro dm h
    rcases h with h | h <;> simp [applyRoleDefault, pyFalsyOpt, h]
  · intro dm s h hs
    simp [applyRoleDefault, pyFalsyOpt, h, hs]

/-- Witness for C8 (amended): a validated record with role `"admin"` is
unchanged; a record lacking the role gets the default. -/
theorem role_default_characterization_witness :
    applyRoleDefault ⟨some "A", some "a@b.cd", none, some "admin"⟩ =
      ⟨some "A", some "a@b.cd", none, some "admin"⟩ ∧
    (applyRoleDefault ⟨some "A", some "a@b.cd", none, none⟩).role =
      some DEFAULT_ROLE := by
  exact ⟨role_default_characterization.2.2 _ "admin" rfl (by decide),
    role_default_characterization.2.1 _ (Or.inl rfl)⟩

/-- Counterexample to C8 as stated: a validated record that already
carries a role — the empty string — does **not** keep it unchanged: the
default overwrites it. -/
theorem role_default_counterexample :
    (⟨some "Alice", some "alice@example.com", none, some ""⟩ : DataModel).role =
      some "" ∧
    finalize_rows [⟨some "Alice", some "alice@example.com", none, some ""⟩] =
      ([⟨some "Alice", some "alice@example.com", none, some "employee"⟩], []) := by
  decide

/-! ## Session gate and structural abort -/

/-- Claim C9: a batch whose connection id is absent from the session store
or whose stored status is not "connected" is skipped entirely — the
handler behaves exactly as if the message were not in the event, so no
parsing, extraction, validation or delivery happens for it and no error is
surfaced. -/
theorem session_gate_skips_batch :
    ∀ (store : Option String → Option DynItem) (oracle : RawRow → Nat → GptOutcome)
      (pre post : List SqsMsg) (m : SqsMsg),
      sessionConnected store m.connectionId = false →
      lambda_handler store oracle (pre ++ m :: post) =
        lambda_handler store oracle (pre ++ post) := by
  intro store oracle pre post m hm
  have hpm : processMessage store oracle m = .ok none := by
    simp [processMessage, hm]
  induction pre with
  | nil => simp [lambda_handler, hpm]
  | cons p pre ih =>
    cases hp : processMessage store oracle p with
    | ok od =>
      cases od with
      | none => simpa [lambda_handler, hp] using ih
      | some d => simp [lambda_handler, hp, ih]
    | error e =>
      cases e with
      | clientError => simpa [lambda_handler, hp] using ih
      | valueError => simp [lambda_handler, hp]

/-- Witness for C9: a disconnected session produces no delivery and no
error. -/
theorem session_gate_skips_batch_witness :
    sessionConnected (fun _ => none) (some "c1") = false ∧
    lambda_handler (fun _ => none) (fun _ _ => GptOutcome.badJson)
      [⟨some "c1", some "a,b\nc,d"⟩] = ([], none) := by
  refine ⟨rfl, ?_⟩
  have h := session_gate_skips_batch (fun _ => none) (fun _ _ => GptOutcome.badJson)
    [] [] ⟨some "c1", some "a,b\nc,d"⟩ rfl
  simpa using h

/-- Claim C10: a message that passes the session gate but has a missing or
empty data payload raises `ValueError`, which the per-message handler
(catching only `ClientError`) does not catch: deliveries made before it
survive, but neither this batch nor any later message in the event is
processed — the result does not depend on the suffix at all. -/
theorem missing_payload_aborts_event :
    ∀ (store : Option String → Option DynItem) (oracle : RawRow → Nat → GptOutcome)
      (pre post : List SqsMsg) (m : SqsMsg),
      (lambda_handler store oracle pre).2 = none →
      sessionConnected store m.connectionId = true →
      (m.data = none ∨ m.data = some "") →
      lambda_handler store oracle (pre ++ m :: post) =
        ((lambda_handler store oracle pre).1, some PyErr.valueError) := by
  intro store oracle pre post m hpre hconn hdata
  have hpm : processMessage store oracle m = .error .valueError := by
    rcases hdata with h | h <;> simp [processMessage, hconn, h]
  revert hpre
  induction pre with
  | nil =>
    intro _
    simp [lambda_handler, hpm]
  | cons p pre ih =>
    intro hpre
    cases hp : processMessage store oracle p with
    | ok od =>
      cases od with
      | none =>
        rw [show lambda_handler store oracle (p :: pre) = lambda_handler store oracle pre
          from by simp [lambda_handler, hp]] at hpre ⊢
        simpa [lambda_handler, hp] using ih hpre
      | some d =>
        rw [show lambda_handler store oracle (p :: pre) =
            (d :: (lambda_handler store oracle pre).1, (lambda_handler store oracle pre).2)
          from by simp [lambda_handler, hp]] at hpre ⊢
        simp only [List.cons_append]
        simp [lambda_handler, hp, ih hpre]
    | error e =>
      cases e with
      | clientError =>
        rw [show lambda_handler store oracle (p :: pre) = lambda_handler store oracle pre
          from by simp [lambda_handler, hp]] at hpre ⊢
        simpa [lambda_handler, hp] using ih hpre
      | valueError =>
        exfalso
        rw [show lambda_handler store oracle (p :: pre) = ([], some PyErr.valueError)
          from by simp [lambda_handler, hp]] at hpre
        simp at hpre

/-- Witness for C10: one connected message with a missing payload aborts
the whole two-message event; the second (well-formed) message is never
delivered. -/
theorem missing_payload_aborts_event_witness :
    (lambda_handler (fun _ => some ⟨some "connected"⟩) (fun _ _ => GptOutcome.badJson) []).2 = none ∧
    sessionConnected (fun _ => some ⟨some "connected"⟩) (some "c") = true ∧
    lambda_handler (fun _ => some ⟨some "connected"⟩) (fun _ _ => GptOutcome.badJson)
        [⟨some "c", none⟩, ⟨some "c2", some "name,email\nA,a@b.cd"⟩] =
      ([], some PyErr.valueError) := by
  refine ⟨rfl, rfl, ?_⟩
  have h := missing_payload_aborts_event (fun _ => some ⟨some "connected"⟩)
    (fun _ _ => GptOutcome.badJson) [] [⟨some "c2", some "name,email\nA,a@b.cd"⟩]
    ⟨some "c", none⟩ rfl rfl (Or.inl rfl)
  simpa using h

/-! ## The email rule, declaratively -/

/-- The "standard address pattern" of the spec, stated declaratively:
some non-empty `[\w\.-]` local part, an `@`, a non-empty `[\w\.-]` domain
prefix, a dot, and a non-empty final label of word characters — optionally
followed by one trailing newline, before which `re.match`'s `$` also
matches. -/
def emailPatternSpec (s : String) : Prop :=
  ∃ a b c nl : List Char,
    (nl = [] ∨ nl = ['\n']) ∧
    s.toList = (a ++ '@' :: (b ++ '.' :: c)) ++ nl ∧
    a ≠ [] ∧ (∀ x ∈ a, wordDotDash x = true) ∧
    b ≠ [] ∧ (∀ x ∈ b, wordDotDash x = true) ∧
    c ≠ [] ∧ (∀ x ∈ c, pyWordChar x = true)

theorem wordDotDash_ne_at {x : Char} (h : wordDotDash x = true) : x ≠ '@' := by
  intro heq; subst heq; exact absurd h (by decide)

theorem pyWordChar_ne_dot {x : Char} (h : pyWordChar x = true) : x ≠ '.' := by
  intro heq; subst heq; exact absurd h (by decide)

theorem pyWordChar_ne_at {x : Char} (h : pyWordChar x = true) : x ≠ '@' := by
  intro heq; subst heq; exact absurd h (by decide)

theorem takeWhile_append_cons {α} (p : α → Bool) (xs : List α) (y : α)
    (ys : List α) (hxs : ∀ x ∈ xs, p x = true) (hy : p y = false) :
    (xs ++ y :: ys).takeWhile p = xs ∧ (xs ++ y :: ys).dropWhile p = y :: ys := by
  induction xs with
  | nil => simp [List.takeWhile_cons, List.dropWhile_cons, hy]
  | cons a as ih =>
    have ha := hxs a (by simp)
    have hrest := ih (fun x hx => hxs x (by simp [hx]))
    simp [List.takeWhile_cons, List.dropWhile_cons, ha, hrest.1, hrest.2]

theorem dropWhile_head_false {α} (p : α → Bool) (l : List α) (y : α)
    (ys : List α) (h : l.dropWhile p = y :: ys) : p y = false := by
  induction l with
  | nil => simp [List.dropWhile] at h
  | cons a as ih =>
    by_cases hp : p a = true
    · rw [List.dropWhile_cons, if_pos hp] at h
      exact ih h
    · rw [List.dropWhile_cons, if_neg hp] at h
      cases h
      exact Bool.eq_false_iff.mpr hp

theorem emailDomainMatch_iff (d : List Char) :
    emailDomainMatch d = true ↔
      ∃ b c : List Char, d = b ++ '.' :: c ∧
        b ≠ [] ∧ (∀ x ∈ b, wordDotDash x = true) ∧
        c ≠ [] ∧ (∀ x ∈ c, pyWordChar x = true) := by
  constructor
  · intro h
    unfold emailDomainMatch at h
    rcases hd : d.reverse.dropWhile (fun c => c != '.') with _ | ⟨p, preRev⟩
    · rw [hd] at h; simp at h
    · rw [hd] at h
      have hp : (p != '.') = false :=
        dropWhile_head_false (fun ch => ch != '.') d.reverse p preRev hd
      have hpd : p = '.' := by simpa using hp
      subst hpd
      set t := d.reverse.takeWhile (fun c => c != '.') with ht
      have hsplit : d.reverse = t ++ '.' :: preRev := by
        conv_lhs => rw [← List.takeWhile_append_dropWhile
          (p := fun c => c != '.') (l := d.reverse)]
        rw [hd, ht]
      have hd2 : d = preRev.reverse ++ '.' :: t.reverse := by
        have h2 := congrArg List.reverse hsplit
        rw [List.reverse_reverse] at h2
        rw [h2]
        simp
      simp only [Bool.and_eq_true, Bool.not_eq_true'] at h
      obtain ⟨⟨⟨ht1, ht2⟩, hp1⟩, hp2⟩ := h
      refine ⟨preRev.reverse, t.reverse, hd2, ?_, ?_, ?_, ?_⟩
      · intro hnil
        rw [List.reverse_eq_nil_iff] at hnil
        rw [hnil] at hp1
        simp at hp1
      · intro x hx
        rw [List.mem_reverse] at hx
        exact (List.all_eq_true.mp hp2) x hx
      · intro hnil
        rw [List.reverse_eq_nil_iff] at hnil
        rw [hnil] at ht1
        simp at ht1
      · intro x hx
        rw [List.mem_reverse] at hx
        exact (List.all_eq_true.mp ht2) x hx
  · rintro ⟨b, c, rfl, hb, hball, hc, hcall⟩
    have hcrev : ∀ x ∈ c.reverse, (x != '.') = true := by
      intro x hx
      rw [List.mem_reverse] at hx
      exact bne_iff_ne.mpr (pyWordChar_ne_dot (hcall x hx))
    have hdot : ((('.' : Char)) != '.') = false := by decide
    have hsplit := takeWhile_append_cons (fun ch => ch != '.')
      c.reverse '.' b.reverse hcrev hdot
    unfold emailDomainMatch
    have hrev : (b ++ '.' :: c).reverse = c.reverse ++ '.' :: b.reverse := by simp
    rw [hrev, hsplit.1, hsplit.2]
    simp only [Bool.and_eq_true, Bool.not_eq_true']
    refine ⟨⟨⟨?_, ?_⟩, ?_⟩, ?_⟩
    · simp [List.isEmpty_iff, hc]
    · rw [List.all_eq_true]
      intro x hx
      rw [List.mem_reverse] at hx
      exact hcall x hx
    · simp [List.isEmpty_iff, hb]
    · rw [List.all_eq_true]
      intro x hx
      rw [List.mem_reverse] at hx
      exact hball x hx

theorem pyWordChar_ne_newline {x : Char} (h : pyWordChar x = true) :
    x ≠ '\n' := by
  intro heq; subst heq; exact absurd h (by decide)

theorem emailRegexCore_iff (cs : List Char) :
    emailRegexCore cs = true ↔
      ∃ a b c : List Char, cs = a ++ '@' :: (b ++ '.' :: c) ∧
        a ≠ [] ∧ (∀ x ∈ a, wordDotDash x = true) ∧
        b ≠ [] ∧ (∀ x ∈ b, wordDotDash x = true) ∧
        c ≠ [] ∧ (∀ x ∈ c, pyWordChar x = true) := by
  constructor
  · intro h
    unfold emailRegexCore at h
    rcases hd : cs.dropWhile (fun c => c != '@') with _ | ⟨p, d⟩
    · rw [hd] at h; simp at h
    · rw [hd] at h
      have hp : (p != '@') = false :=
        dropWhile_head_false (fun ch => ch != '@') cs p d hd
      have hpd : p = '@' := by simpa using hp
      subst hpd
      set loc := cs.takeWhile (fun c => c != '@') with hloc
      have hsplit : cs = loc ++ '@' :: d := by
        conv_lhs => rw [← List.takeWhile_append_dropWhile
          (p := fun c => c != '@') (l := cs)]
        rw [hd, hloc]
      simp only [Bool.and_eq_true, Bool.not_eq_true'] at h
      obtain ⟨⟨⟨hl1, hl2⟩, _⟩, hdom⟩ := h
      obtain ⟨b, c, hbc, hb, hball, hc, hcall⟩ := (emailDomainMatch_iff d).mp hdom
      refine ⟨loc, b, c, ?_, ?_, ?_, hb, hball, hc, hcall⟩
      · rw [hsplit, hbc]
      · intro hnil
        rw [hnil] at hl1
        simp at hl1
      · exact fun x hx => (List.all_eq_true.mp hl2) x hx
  · rintro ⟨a, b, c, rfl, ha, haall, hb, hball, hc, hcall⟩
    have harev : ∀ x ∈ a, ((x != '@') : Bool) = true :=
      fun x hx => bne_iff_ne.mpr (wordDotDash_ne_at (haall x hx))
    have hat : ((('@' : Char)) != '@') = false := by decide
    have hsplit := takeWhile_append_cons (fun ch => ch != '@')
      a '@' (b ++ '.' :: c) harev hat
    unfold emailRegexCore
    rw [hsplit.1, hsplit.2]
    simp only [Bool.and_eq_true, Bool.not_eq_true']
    refine ⟨⟨⟨?_, ?_⟩, ?_⟩, ?_⟩
    · simp [List.isEmpty_iff, ha]
    · rw [List.all_eq_true]; exact haall
    · rw [List.all_eq_true]
      intro x hx
      rcases List.mem_append.mp hx with hx | hx
      · exact bne_iff_ne.mpr (wordDotDash_ne_at (hball x hx))
      · rcases List.mem_cons.mp hx with rfl | hx
        · decide
        · exact bne_iff_ne.mpr (pyWordChar_ne_at (hcall x hx))
    · exact (emailDomainMatch_iff _).mpr ⟨b, c, rfl, hb, hball, hc, hcall⟩

theorem dropTrailingNewline_concat (X : List Char) (y : Char)
    (hy : (y == '\n') = false) :
    dropTrailingNewline (X ++ [y]) = X ++ [y] := by
  unfold dropTrailingNewline
  have hrev : (X ++ [y]).reverse = y :: X.reverse := by simp
  rw [hrev]
  simp [hy]

theorem dropTrailingNewline_append_newline (X : List Char) :
    dropTrailingNewline (X ++ ['\n']) = X := by
  unfold dropTrailingNewline
  have hrev : (X ++ ['\n']).reverse = '\n' :: X.reverse := by simp
  rw [hrev]
  simp

theorem emailRegexMatch_iff (s : String) :
    emailRegexMatch s = true ↔ emailPatternSpec s := by
  constructor
  · intro h
    obtain ⟨a, b, c, hd, ha, haall, hb, hball, hc, hcall⟩ :=
      (emailRegexCore_iff _).mp h
    rcases hr : s.toList.reverse with _ | ⟨x, restRev⟩
    · have hnil : s.toList = [] := List.reverse_eq_nil_iff.mp hr
      have hdt : dropTrailingNewline s.toList = s.toList := by
        rw [hnil]; rfl
      rw [hdt, hnil] at hd
      exact absurd hd (by simp)
    · have hs : s.toList = restRev.reverse ++ [x] := by
        have h2 := congrArg List.reverse hr
        rw [List.reverse_reverse] at h2
        rw [h2]; simp
      by_cases hx : x = '\n'
      · subst hx
        have hdt : dropTrailingNewline s.toList = restRev.reverse := by
          rw [hs]; exact dropTrailingNewline_append_newline _
        rw [hdt] at hd
        refine ⟨a, b, c, ['\n'], Or.inr rfl, ?_, ha, haall, hb, hball, hc, hcall⟩
        rw [hs, hd]
      · have hxb : (x == '\n') = false := by simp [hx]
        have hdt : dropTrailingNewline s.toList = s.toList := by
          rw [hs]; exact dropTrailingNewline_concat _ x hxb
        rw [hdt] at hd
        refine ⟨a, b, c, [], Or.inl rfl, ?_, ha, haall, hb, hball, hc, hcall⟩
        rw [List.append_nil]
        exact hd
  · rintro ⟨a, b, c, nl, hnl, heq, ha, haall, hb, hball, hc, hcall⟩
    have hcore : emailRegexCore (a ++ '@' :: (b ++ '.' :: c)) = true :=
      (emailRegexCore_iff _).mpr ⟨a, b, c, rfl, ha, haall, hb, hball, hc, hcall⟩
    suffices hdt : dropTrailingNewline s.toList = a ++ '@' :: (b ++ '.' :: c) by
      unfold emailRegexMatch
      rw [hdt]
      exact hcore
    rcases hnl with rfl | rfl
    · rw [List.append_nil] at heq
      rcases List.eq_nil_or_concat c with rfl | ⟨c2, y, rfl⟩
      · exact absurd rfl hc
      · have hyw : pyWordChar y = true := hcall y (by simp)
        have hyb : (y == '\n') = false := by
          simp [pyWordChar_ne_newline hyw]
        have hD : a ++ '@' :: (b ++ '.' :: c2.concat y) =
            (a ++ '@' :: (b ++ '.' :: c2)) ++ [y] := by simp
        rw [heq, hD]
        exact dropTrailingNewline_concat _ y hyb
    · rw [heq]
      exact dropTrailingNewline_append_newline _

/-- Claim C5 (amended): the validator's email rule accepts exactly the
strings of the shape `local@domain.tld`, optionally followed by one
trailing newline (before which `re.match`'s `$` also matches), where
`local` and `domain` are non-empty runs of word/dot/hyphen characters and
`tld` is a non-empty run of **word characters** (letters, digits or
underscore — at least one word character after the final dot, not
necessarily a letter); any record whose email lacks such a dot-separated
final label fails validation. -/
theorem email_rule_characterization :
    (∀ s : String, emailRegexMatch s = true ↔ emailPatternSpec s) ∧
    (∀ (dm : DataModel) (e : String), dm.email = some e →
      ¬ emailPatternSpec e → validate_data_model dm = false) := by
  refine ⟨emailRegexMatch_iff, ?_⟩
  intro dm e he hne
  have hm : emailRegexMatch e = false := by
    cases hb : emailRegexMatch e with
    | false => rfl
    | true => exact absurd ((emailRegexMatch_iff e).mp hb) hne
  rcases hn : dm.name with _ | n
  · simp [validate_data_model, hn, he]
  · simp [validate_data_model, hn, he, hm]

/-- Witness for C5: `bob@example`, which lacks a dot-separated final
label, is rejected by the validator; `bob@example.com` with one trailing
newline is accepted, matching `re.match`'s `$` semantics. -/
theorem email_rule_characterization_witness :
    validate_data_model ⟨some "Bob", some "bob@example", none, none⟩ = false ∧
    emailRegexMatch "bob@example.com\n" = true ∧
    validate_data_model ⟨some "Bob", some "bob@example.com\n", none, none⟩ = true := by
  refine ⟨?_, by decide, by decide⟩
  refine email_rule_characterization.2 _ "bob@example" rfl ?_
  intro hpat
  have hb : emailRegexMatch "bob@example" = true :=
    (email_rule_characterization.1 "bob@example").mpr hpat
  exact absurd hb (by decide)

/-- Counterexample to C5 as stated: the final dot-separated label needs no
letter — `bob@example.123`, whose label `123` contains no alphabetic
character at all, passes validation. -/
theorem email_rule_counterexample :
    validate_data_model ⟨some "Bob", some "bob@example.123", none, none⟩ = true ∧
    ("123".toList.all fun c => !pyIsAlphaChar c) = true := by decide

/-! ## The name rule -/

/-- The concrete characters the original claim lists as rejected inside a
name token: digits, the hyphen and the apostrophe. -/
def badNameChars : List Char :=
  ['0', '1', '2', '3', '4', '5', '6', '7', '8', '9', '-', Char.ofNat 39]

theorem validate_true_name_tokens {dm : DataModel} {n : String}
    (hn : dm.name = some n) (h : validate_data_model dm = true) :
    (pySplitWS n.toList).all pyTokIsAlpha = true := by
  rcases he : dm.email with _ | e
  · rw [validate_data_model, hn, he] at h
    simp at h
  · rw [validate_data_model, hn, he] at h
    simp at h
    rw [List.all_eq_true]
    intro t ht
    exact h.2.2 t ht

/-- Claim C6 (amended): the name rule rejects every record in which some
whitespace-separated token of the name contains a digit, hyphen or
apostrophe; but "alphabetic" is Python's Unicode `str.isalpha`, so
accented letters count as alphabetic and accented names are **accepted**,
not rejected — a record passes the rule exactly when every token is
non-empty and all of its characters are Unicode-alphabetic. -/
theorem name_rule_characterization :
    (∀ (dm : DataModel) (n : String) (t : List Char),
      dm.name = some n → t ∈ pySplitWS n.toList →
      t.any (fun c => badNameChars.contains c) = true →
      validate_data_model dm = false) ∧
    (∀ (dm : DataModel) (n : String), dm.name = some n →
      validate_data_model dm = true →
      ∀ t ∈ pySplitWS n.toList, t.all pyIsAlphaChar = true) := by
  have hbad : ∀ c ∈ badNameChars, pyIsAlphaChar c = false := by decide
  constructor
  · intro dm n t hn ht hany
    cases hval : validate_data_model dm with
    | false => rfl
    | true =>
      exfalso
      have hall := validate_true_name_tokens hn hval
      have htok := (List.all_eq_true.mp hall) t ht
      rw [pyTokIsAlpha, Bool.and_eq_true] at htok
      obtain ⟨c, hc, hcbad⟩ := List.any_eq_true.mp hany
      have hcmem : c ∈ badNameChars := by
        simpa using hcbad
      have := (List.all_eq_true.mp htok.2) c hc
      rw [hbad c hcmem] at this
      cases this
  · intro dm n hn hv t ht
    have hall := validate_true_name_tokens hn hv
    have htok := (List.all_eq_true.mp hall) t ht
    rw [pyTokIsAlpha, Bool.and_eq_true] at htok
    exact htok.2

/-- Witness for C6: the hyphenated name `Ann-Marie` is rejected even with
a valid email. -/
theorem name_rule_characterization_witness :
    validate_data_model ⟨some "Ann-Marie", some "ann@example.com", none, none⟩ =
      false := by
  refine name_rule_characterization.1 _ "Ann-Marie" ("Ann-Marie".toList) rfl
    ?_ ?_
  · decide
  · decide

/-- Counterexample to C6 as stated: `José` contains an accented character
(not an ASCII letter), yet the record passes validation — accented names
are not rejected. -/
theorem name_rule_counterexample :
    validate_data_model ⟨some "José", some "jose@example.com", none, none⟩ = true ∧
    ("José".toList.any fun c =>
      !((65 ≤ c.toNat && c.toNat ≤ 90) || (97 ≤ c.toNat && c.toNat ≤ 122))) = true := by
  decide
